import Mathlib

/-!
Verification of the podpilot agent ↔ hub session protocol.

This file gives a shallow embedding, in Lean, of the core of the
`podpilot` repository: the JSON wire protocol between agent and hub
(`podpilot-common`), the agent-side reconnect/backoff and heartbeat
machinery (`podpilot-agent/src/ws/client.rs`), and the hub-side
connection registry, heartbeat fanout, stale-agent reaper and session
handler (`podpilot-hub/src/state.rs`, `ws/heartbeat.rs`, `ws/cleanup.rs`,
`ws/handler.rs`).  Each definition is annotated with the source location
it embeds; theorems at the end of the file settle the specification
claims against these definitions.

Modelling conventions:
* machine integers are `Nat`; timestamps (`chrono::DateTime<Utc>`) are
  abstract instants carried as `Int`;
* UUIDs are 128-bit values (`Fin (2 ^ 128)`); their wire form is the
  lowercase hyphenated rendering, which is embedded concretely as a
  character-level codec so that "bit-exact" preservation is a real
  theorem;
* fallible operations return `Option`/`Except`, and external effects
  (database success/failure, socket deliveries) are oracle parameters;
* JSON documents are modelled at the value level (`Json` below): the
  text-level printer/parser of `serde_json` is outside the embedding,
  scalar leaves other than UUIDs (timestamps, floats) are carried as
  their abstract values.
-/

namespace Podpilot

/-- 128-bit UUID value (the `uuid` crate's `Uuid`). -/
abbrev Uuid := Fin (2 ^ 128)

/-- Build a UUID from a natural number (reduced mod `2 ^ 128`). -/
def mkUuid (n : Nat) : Uuid := ⟨n % 2 ^ 128, Nat.mod_lt n (by norm_num)⟩

/-! ### Lowercase hex / hyphenated UUID rendering

The `uuid` crate serializes a `Uuid` as 32 lowercase hex digits in
groups `8-4-4-4-12`; serde round-trips it through that string. -/

/-- Lowercase hex digit character for a value below 16 (`0`–`9`, `a`–`f`). -/
def hexDigitChar (n : Nat) : Char :=
  if n < 10 then Char.ofNat (48 + n) else Char.ofNat (87 + n)

/-- Numeric value of a lowercase hex digit character. -/
def hexDigitVal (c : Char) : Option Nat :=
  if 48 ≤ c.toNat ∧ c.toNat ≤ 57 then some (c.toNat - 48)
  else if 97 ≤ c.toNat ∧ c.toNat ≤ 102 then some (c.toNat - 87)
  else none

/-- Fixed-width big-endian hex rendering: `k` digits of `n`. -/
def toHexDigits : Nat → Nat → List Char
  | 0, _ => []
  | k + 1, n => toHexDigits k (n / 16) ++ [hexDigitChar (n % 16)]

/-- Big-endian hex parsing with an accumulator. -/
def parseHexAcc : Nat → List Char → Option Nat
  | acc, [] => some acc
  | acc, c :: cs =>
    match hexDigitVal c with
    | some v => parseHexAcc (acc * 16 + v) cs
    | none => none

/-- The 36-character lowercase hyphenated rendering of a UUID
(groups `8-4-4-4-12`), as produced by the `uuid` crate's `Display`
implementation, which serde uses for serialization. -/
def uuidChars (u : Uuid) : List Char :=
  let ds := toHexDigits 32 u.val
  ['-'].intercalate
    [ds.take 8, (ds.drop 8).take 4, (ds.drop 12).take 4, (ds.drop 16).take 4,
      ds.drop 20]

/-- Parse the canonical hyphenated rendering back to the 128-bit value. -/
def parseUuidChars (cs : List Char) : Option Nat :=
  match cs.splitOn '-' with
  | [a, b, c, d, e] =>
    if a.length = 8 ∧ b.length = 4 ∧ c.length = 4 ∧ d.length = 4 ∧
        e.length = 12 then
      parseHexAcc 0 (a ++ b ++ c ++ d ++ e)
    else none
  | _ => none

/-! ### JSON documents

serde serializes the wire messages as JSON objects with discriminator
key `type` (snake_case variant names).  `Json` models a document at the
level of `serde_json::Value`.  Scalar leaves: strings; unsigned integers
(the `u64` heartbeat sequence); `f32` numbers carried by bit pattern
(serde_json's ryu printing round-trips every `f32` exactly); timestamps
carried as the abstract instant of their RFC3339 rendering (chrono's
serde round-trips it). -/

inductive Json where
  | str (s : String)
  | num (n : Nat)
  | numF32 (bits : Nat)
  | time (t : Int)
  | obj (fields : List (String × Json))

/-- Look up a field of a JSON object by key (first occurrence). -/
def getField (fields : List (String × Json)) (k : String) : Option Json :=
  match fields with
  | [] => none
  | (k', v) :: rest => if k' = k then some v else getField rest k

/-- A chrono `DateTime<Utc>` instant, abstract. -/
abbrev Timestamp := Int

def encodeTime (t : Timestamp) : Json := .time t

def decodeTime : Json → Option Timestamp
  | .time t => some t
  | _ => none

def encodeUuid (u : Uuid) : Json := .str ⟨uuidChars u⟩

def decodeUuid (j : Json) : Option Uuid :=
  match j with
  | .str s =>
    (parseUuidChars s.data).bind fun n =>
      if hn : n < 2 ^ 128 then some ⟨n, hn⟩ else none
  | _ => none

/-! ### Protocol data types

`podpilot-common/src/protocol` and `podpilot-common/src/types`.  The
copy of `protocol/messages.rs` under `src/` is an older revision that
lacks the heartbeat variants; the types below follow the revision used
by `client.rs`, `handler.rs` and `heartbeat.rs`, whose wire shape is
spec §6.1. -/

/-- `ProviderType` (podpilot-common/src/types/agent.rs): serde
`rename_all = "lowercase"` with explicit rename `vastai` for `VastAI`. -/
inductive ProviderType where
  | vastAI
  | runpod
  | localhost
deriving DecidableEq, Repr

/-- Wire name of a provider variant. -/
def providerName : ProviderType → String
  | .vastAI => "vastai"
  | .runpod => "runpod"
  | .localhost => "local"

def providerOfName (s : String) : Option ProviderType :=
  if s = "vastai" then some .vastAI
  else if s = "runpod" then some .runpod
  else if s = "local" then some .localhost
  else none

/-- `GpuInfo` (podpilot-common/src/types/gpu.rs); `memory_gb : f32` is
carried by bit pattern, `compute_capability` has
`skip_serializing_if = "Option::is_none"`. -/
structure GpuInfo where
  name : String
  memory_gb : Nat
  cuda_version : String
  compute_capability : Option String
deriving DecidableEq, Repr

def encodeGpuInfo (g : GpuInfo) : Json :=
  .obj ([("name", .str g.name), ("memory_gb", .numF32 g.memory_gb),
    ("cuda_version", .str g.cuda_version)] ++
    match g.compute_capability with
    | some cc => [("compute_capability", .str cc)]
    | none => [])

def decodeGpuInfo (j : Json) : Option GpuInfo :=
  match j with
  | .obj fs =>
    match getField fs "name", getField fs "memory_gb",
        getField fs "cuda_version" with
    | some (.str name), some (.numF32 mem), some (.str cv) =>
      match getField fs "compute_capability" with
      | some (.str cc) => some ⟨name, mem, cv, some cc⟩
      | none => some ⟨name, mem, cv, none⟩
      | some _ => none
    | _, _, _ => none
  | _ => none

/-- Modelled from the spec (§6.1 `register` payload): `AgentInfo` in
`podpilot_common::protocol`, constructed by
`client.rs::create_registration_message` and consumed by
`handler.rs::create_agent_record`; the stale copy of
`protocol/messages.rs` under `src/` predates it.  `tailscale_ip` is an
`IpAddr` carried as its textual rendering. -/
structure AgentInfo where
  correlation_id : Uuid
  provider : ProviderType
  provider_instance_id : String
  hostname : String
  gpu_info : GpuInfo
  tailscale_ip : String
  agent_version : String
deriving DecidableEq, Repr

/-- Modelled from the spec (§6.1 `heartbeat_ack` payload):
`HeartbeatAckMessage` in `podpilot_common::protocol`. -/
structure HeartbeatAckMessage where
  correlation_id : Uuid
  timestamp : Timestamp
deriving DecidableEq, Repr

/-- `RegisterAck` payload (`AgentRegistration`), spec §6.1 and
`protocol/messages.rs` (`RegisterResponse` in the stale copy). -/
structure AgentRegistration where
  correlation_id : Uuid
  agent_id : Uuid
  registered_at : Timestamp
  hub_version : String
deriving DecidableEq, Repr

/-- Modelled from the spec (§6.1 `heartbeat` payload):
`HeartbeatMessage` in `podpilot_common::protocol`; `sequence` is `u64`. -/
structure HeartbeatMessage where
  correlation_id : Uuid
  timestamp : Timestamp
  sequence : Nat
deriving DecidableEq, Repr

/-- Agent → hub messages (`AgentMessage`), serde-tagged by `type`. -/
inductive AgentMessage where
  | register (info : AgentInfo)
  | heartbeatAck (m : HeartbeatAckMessage)
deriving DecidableEq, Repr

/-- Hub → agent messages (`HubMessage`), serde-tagged by `type`; the
`error` variant's `correlation_id` has
`skip_serializing_if = "Option::is_none"`. -/
inductive HubMessage where
  | registerAck (r : AgentRegistration)
  | heartbeat (h : HeartbeatMessage)
  | error (message : String) (code : String) (correlation_id : Option Uuid)
deriving DecidableEq, Repr

def encodeAgentMessage : AgentMessage → Json
  | .register info =>
    .obj [("type", .str "register"),
      ("correlation_id", encodeUuid info.correlation_id),
      ("provider", .str (providerName info.provider)),
      ("provider_instance_id", .str info.provider_instance_id),
      ("hostname", .str info.hostname),
      ("gpu_info", encodeGpuInfo info.gpu_info),
      ("tailscale_ip", .str info.tailscale_ip),
      ("agent_version", .str info.agent_version)]
  | .heartbeatAck m =>
    .obj [("type", .str "heartbeat_ack"),
      ("correlation_id", encodeUuid m.correlation_id),
      ("timestamp", encodeTime m.timestamp)]

def decodeAgentMessage (j : Json) : Option AgentMessage :=
  match j with
  | .obj fs =>
    match getField fs "type" with
    | some (.str "register") =>
      match getField fs "correlation_id", getField fs "provider",
          getField fs "provider_instance_id", getField fs "hostname",
          getField fs "gpu_info", getField fs "tailscale_ip",
          getField fs "agent_version" with
      | some cj, some (.str pv), some (.str pid), some (.str hn), some gj,
          some (.str ip), some (.str av) =>
        match decodeUuid cj, providerOfName pv, decodeGpuInfo gj with
        | some cid, some p, some g =>
          some (.register ⟨cid, p, pid, hn, g, ip, av⟩)
        | _, _, _ => none
      | _, _, _, _, _, _, _ => none
    | some (.str "heartbeat_ack") =>
      match getField fs "correlation_id", getField fs "timestamp" with
      | some cj, some tj =>
        match decodeUuid cj, decodeTime tj with
        | some cid, some t => some (.heartbeatAck ⟨cid, t⟩)
        | _, _ => none
      | _, _ => none
    | _ => none
  | _ => none

def encodeHubMessage : HubMessage → Json
  | .registerAck r =>
    .obj [("type", .str "register_ack"),
      ("correlation_id", encodeUuid r.correlation_id),
      ("agent_id", encodeUuid r.agent_id),
      ("registered_at", encodeTime r.registered_at),
      ("hub_version", .str r.hub_version)]
  | .heartbeat h =>
    .obj [("type", .str "heartbeat"),
      ("correlation_id", encodeUuid h.correlation_id),
      ("timestamp", encodeTime h.timestamp),
      ("sequence", .num h.sequence)]
  | .error message code cid =>
    .obj ([("type", .str "error"), ("message", .str message),
      ("code", .str code)] ++
      match cid with
      | some c => [("correlation_id", encodeUuid c)]
      | none => [])

def decodeHubMessage (j : Json) : Option HubMessage :=
  match j with
  | .obj fs =>
    match getField fs "type" with
    | some (.str "register_ack") =>
      match getField fs "correlation_id", getField fs "agent_id",
          getField fs "registered_at", getField fs "hub_version" with
      | some cj, some aj, some rj, some (.str hv) =>
        match decodeUuid cj, decodeUuid aj, decodeTime rj with
        | some cid, some aid, some rt => some (.registerAck ⟨cid, aid, rt, hv⟩)
        | _, _, _ => none
      | _, _, _, _ => none
    | some (.str "heartbeat") =>
      match getField fs "correlation_id", getField fs "timestamp",
          getField fs "sequence" with
      | some cj, some tj, some (.num sq) =>
        match decodeUuid cj, decodeTime tj with
        | some cid, some t => some (.heartbeat ⟨cid, t, sq⟩)
        | _, _ => none
      | _, _, _ => none
    | some (.str "error") =>
      match getField fs "message", getField fs "code" with
      | some (.str msg), some (.str code) =>
        match getField fs "correlation_id" with
        | some cj =>
          match decodeUuid cj with
          | some cid => some (.error msg code (some cid))
          | none => none
        | none => some (.error msg code none)
      | _, _ => none
    | _ => none
  | _ => none

/-! ### Agent session driver (podpilot-agent/src/ws/client.rs)

Times are in milliseconds where sub-second precision matters, in
seconds otherwise. -/

/-- `RECONNECT_INITIAL_BACKOFF` (client.rs:18), milliseconds. -/
def reconnectInitialBackoffMs : Nat := 1000

/-- `RECONNECT_MAX_BACKOFF` (client.rs:19), milliseconds. -/
def reconnectMaxBackoffMs : Nat := 60000

/-- Backoff in force before the `(n+1)`-st consecutive failed attempt:
after each failure `run` sleeps the current backoff and then doubles it,
capped at the maximum (client.rs:96–102).  The source computes this in
`f64`; on these powers of two the arithmetic is exact. -/
def backoffMs : Nat → Nat
  | 0 => reconnectInitialBackoffMs
  | n + 1 => min (backoffMs n * 2) reconnectMaxBackoffMs

/-- Start time of the `n`-th connect attempt (`n = 0` first) when every
attempt fails immediately (hub unreachable): each retry waits
`backoffMs` of the failure streak so far (client.rs:69–106). -/
def attemptTimeMs : Nat → Nat
  | 0 => 0
  | n + 1 => attemptTimeMs n + backoffMs n

/-- Why the post-registration session loop of `connect_and_handle`
exited: the four `break` arms of the loop (client.rs:195–227). -/
inductive CloseReason where
  | shutdown
  | hubClosed
  | wsError
  | streamEnded
deriving DecidableEq, Repr

/-- Result of one `connect_and_handle` call as `run` observes it:
`Err` if the connect, the registration send, or the wait for
`RegisterAck` failed; `Ok` whenever the session loop was reached,
for every `CloseReason` — after the loop the function always returns
`Ok(())` (client.rs:229–238). -/
inductive ConnectOutcome where
  | failedBeforeConnected
  | closedAfterConnected (reason : CloseReason)
deriving DecidableEq, Repr

/-- Backoff update in `run` (client.rs:81–104): reset to the initial
value on `Ok`, double-and-cap on `Err`. -/
def nextBackoffMs (backoff : Nat) : ConnectOutcome → Nat
  | .closedAfterConnected _ => reconnectInitialBackoffMs
  | .failedBeforeConnected => min (backoff * 2) reconnectMaxBackoffMs

/-- One occurrence observed by the session loop's `select`
(client.rs:195–227): the shutdown signal, an inbound websocket item, a
websocket error, or the stream ending. -/
inductive SessionEvent where
  | shutdownSignal
  | textFrame (j : Json)
  | closeFrame
  | pingOrPong
  | otherFrame
  | wsError
  | streamEnded

/-- The close reason the session loop reports after scanning its events
in order; `none` means the loop is still suspended on the socket.
Text, ping/pong and other frames continue the loop; only the shutdown
signal, a close frame, a websocket error, or the end of the stream break
it (client.rs:195–227).  There is no arm for the heartbeat deadline. -/
def closeReasonOf : List SessionEvent → Option String
  | [] => none
  | e :: es =>
    match e with
    | .shutdownSignal => some "shutdown"
    | .closeFrame => some "hub_closed"
    | .wsError => some "error"
    | .streamEnded => some "stream_ended"
    | .textFrame _ => closeReasonOf es
    | .pingOrPong => closeReasonOf es
    | .otherFrame => closeReasonOf es

/-- What one tick of the spawned heartbeat monitor does
(client.rs:171–190).  The monitor owns no handle to the socket or to
the session loop; its deadline branch (client.rs:183–186) is
`error!(...); break`, so the only outcomes are to keep looping or to
stop itself. -/
inductive MonitorStep where
  | continues
  | stopsItself
deriving DecidableEq, Repr

/-- `HEARTBEAT_TIMEOUT` (client.rs:17), seconds. -/
def heartbeatTimeoutSecs : Int := 30

/-- One tick of the monitor: stop on shutdown, stop (after logging) when
the elapsed time since the last observed heartbeat exceeds the deadline,
otherwise continue (client.rs:174–187). -/
def monitorStep (shutdownSeen : Bool) (elapsedSecs : Int) : MonitorStep :=
  if shutdownSeen then .stopsItself
  else if heartbeatTimeoutSecs < elapsedSecs then .stopsItself
  else .continues

/-- Whether some 5-second tick of the monitor sees the deadline
exceeded. -/
def monitorDetects (elapsedSecsAtTicks : List Int) : Bool :=
  elapsedSecsAtTicks.any (fun e => decide (heartbeatTimeoutSecs < e))

/-! ### Hub data model (podpilot-hub/src/data/models.rs, spec §6.2) -/

/-- `AgentStatus` (podpilot-hub/src/data/models.rs). -/
inductive AgentStatus where
  | registering
  | ready
  | running
  | idle
  | error
  | terminated
deriving DecidableEq, Repr

/-- A row of the `agents` table (`Agent` in
podpilot-hub/src/data/models.rs). -/
structure AgentRow where
  id : Uuid
  provider : ProviderType
  provider_instance_id : Option String
  hostname : String
  status : AgentStatus
  tailscale_ip : Option String
  gpu_info : Option Json
  registered_at : Timestamp
  last_seen_at : Option Timestamp
  terminated_at : Option Timestamp
  created_at : Timestamp
  updated_at : Timestamp

/-! ### Identity resolution (podpilot-hub/src/ws/handler.rs) -/

/-- Row predicate of the lookup in `create_agent_record`
(handler.rs:205–217): `tailscale_ip = $1 AND provider_instance_id = $2
AND terminated_at IS NULL`; a NULL column compares unequal to any
value. -/
def matchesRegistration (req : AgentInfo) (r : AgentRow) : Bool :=
  r.tailscale_ip == some req.tailscale_ip &&
  r.provider_instance_id == some req.provider_instance_id &&
  r.terminated_at == none

/-- The UPDATE applied when re-registering an existing agent
(handler.rs:223–238): status `registering`, hostname, gpu_info,
`last_seen_at = NOW()`; no other column is touched. -/
def reRegisterUpdate (req : AgentInfo) (now : Timestamp) (r : AgentRow) :
    AgentRow :=
  { r with
    status := .registering
    hostname := req.hostname
    gpu_info := some (encodeGpuInfo req.gpu_info)
    last_seen_at := some now }

/-- The fresh row inserted when no live match exists
(handler.rs:245–262): status `registering`,
`registered_at = last_seen_at = NOW()`; `created_at`/`updated_at` take
insert-time defaults. -/
def insertedRow (req : AgentInfo) (now : Timestamp) (freshId : Uuid) :
    AgentRow :=
  { id := freshId
    provider := req.provider
    provider_instance_id := some req.provider_instance_id
    hostname := req.hostname
    status := .registering
    tailscale_ip := some req.tailscale_ip
    gpu_info := some (encodeGpuInfo req.gpu_info)
    registered_at := now
    last_seen_at := some now
    terminated_at := none
    created_at := now
    updated_at := now }

/-- Result of `create_agent_record`: the updated table, the resolved
agent id, and which branch ran. -/
structure RegisterEffect where
  db : List AgentRow
  agent_id : Uuid
  reused : Bool

/-- `create_agent_record` (handler.rs:190–266): look up a live row by
(tailscale_ip, provider_instance_id); if found (`fetch_optional` takes
the first match) update it in place and return its id, otherwise insert
a fresh row and return the fresh id. -/
def create_agent_record (db : List AgentRow) (req : AgentInfo)
    (now : Timestamp) (freshId : Uuid) : RegisterEffect :=
  match db.find? (matchesRegistration req) with
  | some row =>
    { db := db.map fun r => if r.id = row.id then reRegisterUpdate req now r
        else r,
      agent_id := row.id, reused := true }
  | none =>
    { db := db ++ [insertedRow req now freshId], agent_id := freshId,
      reused := false }

/-! ### Connection registry (podpilot-hub/src/state.rs)

The registry is a `DashMap<Uuid, mpsc::Sender<HubMessage>>`.  Where the
queue state matters it is modelled as an association list of
`OutboundQueue`s; where only the id set matters, as a list of ids. -/

/-- One agent's outbound queue endpoint: a tokio bounded
`mpsc::Sender` (32 slots, handler.rs:42); `closed` means the receiving
half was dropped. -/
structure OutboundQueue where
  queued : Nat
  closed : Bool
deriving DecidableEq, Repr

/-- `mpsc::channel::<HubMessage>(32)` (handler.rs:42). -/
def outboundQueueCapacity : Nat := 32

/-- The behaviours `AppState::send_to_agent` (state.rs:36–46) can
exhibit.  The body is `connections.get(id)` followed by
`sender.send(message).await`; tokio's bounded `Sender::send` returns an
error only when the channel is closed, and when the queue is full and
open it suspends with no timeout until a slot frees. -/
inductive SendOutcome where
  | notConnected
  | enqueued (queuedAfter : Nat)
  | channelClosedError
  | waitsUnbounded
deriving DecidableEq, Repr

/-- `AppState::send_to_agent` (state.rs:36–46). -/
def send_to_agent (connections : List (Uuid × OutboundQueue)) (id : Uuid) :
    SendOutcome :=
  match connections.find? (fun p => p.1 == id) with
  | none => .notConnected
  | some (_, q) =>
    if q.closed then .channelClosedError
    else if q.queued < outboundQueueCapacity then .enqueued (q.queued + 1)
    else .waitsUnbounded

/-- `AppState::register_connection` (state.rs:26–28): map insert,
replacing any previous entry for the id. -/
def register_connection (conns : List Uuid) (id : Uuid) : List Uuid :=
  id :: conns.filter (fun a => a != id)

/-- `AppState::remove_connection` (state.rs:31–33): map remove.  It does
not touch the fanout task's sequence map, which is a local variable of
`heartbeat_sender_task` (heartbeat.rs:17). -/
def remove_connection (conns : List Uuid) (id : Uuid) : List Uuid :=
  conns.filter (fun a => a != id)

/-! ### Heartbeat fanout (podpilot-hub/src/ws/heartbeat.rs) -/

/-- The fanout task's per-agent sequence map
(`sequence_map : HashMap<Uuid, u64>`, heartbeat.rs:17). -/
abbrev SeqMap := List (Uuid × Nat)

def seqLookup (m : SeqMap) (id : Uuid) : Option Nat :=
  (m.find? (fun p => p.1 == id)).map (·.2)

def seqSet (m : SeqMap) (id : Uuid) (s : Nat) : SeqMap :=
  match m with
  | [] => [(id, s)]
  | p :: rest => if p.1 = id then (p.1, s) :: rest else p :: seqSet rest id s

def seqRemove (m : SeqMap) (id : Uuid) : SeqMap :=
  m.filter fun p => !(p.1 == id)

/-- `send_heartbeats` (heartbeat.rs:42–69): for each id in the
connected-agents snapshot, `entry(id).or_insert(0)` then `+= 1`, then
send a heartbeat carrying that sequence; when the send fails the map
entry is erased.  `sendOk id` abstracts whether `send_to_agent`
succeeded for `id` (it fails iff the id left the registry or its queue
closed).  Returns the `(agent, sequence)` pairs actually enqueued, in
order, with the updated map. -/
def send_heartbeats (conns : List Uuid) (sendOk : Uuid → Bool) (m : SeqMap) :
    List (Uuid × Nat) × SeqMap :=
  match conns with
  | [] => ([], m)
  | id :: rest =>
    let s := (seqLookup m id).getD 0 + 1
    let m1 := seqSet m id s
    if sendOk id then
      let step := send_heartbeats rest sendOk m1
      ((id, s) :: step.1, step.2)
    else
      send_heartbeats rest sendOk (seqRemove m1 id)

/-- Joint state for tracing fanout ticks against registry churn: the
registry id set, the fanout task's private sequence map, and the log of
every heartbeat sequence enqueued so far. -/
structure FanoutTrace where
  conns : List Uuid
  seqMap : SeqMap
  sent : List (Uuid × Nat)

/-- Interleaved occurrences: a fanout tick (heartbeat.rs:21), a session
registering its connection (handler.rs:45), or a registry entry being
destroyed (handler.rs:91 or cleanup.rs:88). -/
inductive HubEvent where
  | tick (sendOk : Uuid → Bool)
  | connect (id : Uuid)
  | disconnect (id : Uuid)

def hubStep (s : FanoutTrace) : HubEvent → FanoutTrace
  | .tick sendOk =>
    let step := send_heartbeats s.conns sendOk s.seqMap
    { conns := s.conns, seqMap := step.2, sent := s.sent ++ step.1 }
  | .connect id => { s with conns := register_connection s.conns id }
  | .disconnect id => { s with conns := remove_connection s.conns id }

def hubRun (s : FanoutTrace) : List HubEvent → FanoutTrace
  | [] => s
  | e :: es => hubRun (hubStep s e) es

/-! ### Stale-agent reaper (podpilot-hub/src/ws/cleanup.rs) -/

/-- Staleness predicate of the reaper's SELECT (cleanup.rs:41–50):
status in (`ready`, `running`, `idle`) and
`last_seen_at < NOW() - INTERVAL '30 seconds'` (false when
`last_seen_at` is NULL). -/
def isStale (now : Timestamp) (r : AgentRow) : Bool :=
  (r.status == .ready || r.status == .running || r.status == .idle) &&
  (match r.last_seen_at with
   | some t => decide (t < now - 30)
   | none => false)

/-- The UPDATE of one reaped row (cleanup.rs:71–81):
`status = 'error', updated_at = NOW() WHERE id = $1`. -/
def markErrorRow (now : Timestamp) (r : AgentRow) : AgentRow :=
  { r with status := .error, updated_at := now }

def markError (now : Timestamp) (id : Uuid) (db : List AgentRow) :
    List AgentRow :=
  db.map fun r => if r.id = id then markErrorRow now r else r

/-- The reaper's per-id loop (cleanup.rs:69–91): attempt the UPDATE; on
a database error (`updateOk id = false`) log and `continue`, touching
neither the row nor the registry; on success remove the connection. -/
def reapIds (ids : List Uuid) (updateOk : Uuid → Bool) (now : Timestamp)
    (db : List AgentRow) (conns : List Uuid) : List AgentRow × List Uuid :=
  match ids with
  | [] => (db, conns)
  | id :: rest =>
    if updateOk id then
      reapIds rest updateOk now (markError now id db) (remove_connection conns id)
    else
      reapIds rest updateOk now db conns

/-- One tick of `cleanup_stale_agents` (cleanup.rs:38–92): select the
stale ids, then run the per-id loop. -/
def cleanup_stale_agents (db : List AgentRow) (conns : List Uuid)
    (now : Timestamp) (updateOk : Uuid → Bool) : List AgentRow × List Uuid :=
  reapIds ((db.filter (isStale now)).map (·.id)) updateOk now db conns

/-! ### Hub session handler (podpilot-hub/src/ws/handler.rs) -/

/-- An inbound websocket item as the hub's handler sees it. -/
inductive Frame where
  | text (j : Json)
  | binaryOrOther
  | closeFrame
  | pingFrame

/-- The 30-second wait for the first inbound frame (handler.rs:108). -/
def registrationTimeoutSecs : Nat := 30

/-- Hub version carried in the `RegisterAck`
(`env!("CARGO_PKG_VERSION")`, handler.rs:133; spec scenario S1 shows
`0.1.0`). -/
def hubVersion : String := "0.1.0"

/-- Result of the registration handshake. -/
inductive RegOutcome where
  | rejected (reason : String)
  | accepted (eff : RegisterEffect) (ack : Json)

/-- `wait_for_registration` (handler.rs:99–150).  `first` is the first
inbound item within the 30-second window (`none` when the timeout
elapsed or the stream ended first); `dbOk` abstracts whether the
database operations of `create_agent_record` succeed.  Every non-text
item, parse failure, non-`Register` message, or database failure is an
error; the caller then closes the socket without writing anything
(handler.rs:32–36). -/
def wait_for_registration (first : Option Frame) (db : List AgentRow)
    (now : Timestamp) (freshId : Uuid) (dbOk : Bool) : RegOutcome :=
  match first with
  | none => .rejected "timeout or stream ended before registration"
  | some (.text j) =>
    match decodeAgentMessage j with
    | none => .rejected "failed to parse registration message"
    | some (.heartbeatAck _) => .rejected "unexpected heartbeat ack"
    | some (.register req) =>
      if dbOk then
        let eff := create_agent_record db req now freshId
        .accepted eff (encodeHubMessage (.registerAck
          { correlation_id := req.correlation_id
            agent_id := eff.agent_id
            registered_at := now
            hub_version := hubVersion }))
      else .rejected "failed to create agent record"
  | some _ => .rejected "expected text message"

/-- `UPDATE agents SET last_seen_at = NOW() WHERE id = $1`
(handler.rs:164–173). -/
def updateLastSeen (db : List AgentRow) (agentId : Uuid) (now : Timestamp) :
    List AgentRow :=
  db.map fun r => if r.id = agentId then { r with last_seen_at := some now }
    else r

/-- `handle_agent_message` (handler.rs:153–184): parse the text frame;
a `HeartbeatAck` updates `last_seen_at` (`dbOk` abstracts the UPDATE's
success), a late `Register` is ignored.  The second component is
`false` when the function returned `Err` (parse or database failure) —
the caller only logs it (handler.rs:78–80). -/
def handle_agent_message (db : List AgentRow) (agentId : Uuid) (j : Json)
    (now : Timestamp) (dbOk : Bool) : List AgentRow × Bool :=
  match decodeAgentMessage j with
  | none => (db, false)
  | some (.heartbeatAck _) =>
    if dbOk then (updateLastSeen db agentId now, true) else (db, false)
  | some (.register _) => (db, true)

/-- One occurrence observed by the post-registration inbound loop
(handler.rs:68–88): a received item (with the wall clock and database
oracle at that point) or a websocket error. -/
inductive HubLoopEvent where
  | item (f : Frame) (now : Timestamp) (dbOk : Bool)
  | socketError

/-- The inbound demux loop (handler.rs:68–88): a close frame or socket
error breaks; ping/binary items are skipped; a text frame is handled by
`handle_agent_message`, whose `Err` is logged and the loop continues.
Returns the table as of loop exit. -/
def hubSessionLoop (agentId : Uuid) (db : List AgentRow) :
    List HubLoopEvent → List AgentRow
  | [] => db
  | e :: es =>
    match e with
    | .socketError => db
    | .item f now dbOk =>
      match f with
      | .closeFrame => db
      | .pingFrame => hubSessionLoop agentId db es
      | .binaryOrOther => hubSessionLoop agentId db es
      | .text j =>
        hubSessionLoop agentId (handle_agent_message db agentId j now dbOk).1 es

/-- Observable outcome of `handle_agent_socket` (handler.rs:21–96):
what the handshake wrote to the socket, the final table, and how the
session started.  On handshake failure the hub closes the socket
without writing anything and touches no row (handler.rs:32–36); on
success the `RegisterAck` is transmitted (handler.rs:139–142) before
the inbound loop starts (handler.rs:68), so every inbound effect
applies to the post-registration table.  (Registry insertion/removal,
handler.rs:45 and 91, is traced separately by `FanoutTrace`.) -/
structure HandlerOutcome where
  sentDuringHandshake : List Json
  db : List AgentRow
  registeredAs : Option Uuid
  closedAtRegistration : Bool

def handle_agent_socket (first : Option Frame) (rest : List HubLoopEvent)
    (db : List AgentRow) (now : Timestamp) (freshId : Uuid) (dbOk : Bool) :
    HandlerOutcome :=
  match wait_for_registration first db now freshId dbOk with
  | .rejected _ =>
    { sentDuringHandshake := []
      db := db
      registeredAs := none
      closedAtRegistration := true }
  | .accepted eff ack =>
    { sentDuringHandshake := [ack]
      db := hubSessionLoop eff.agent_id eff.db rest
      registeredAs := some eff.agent_id
      closedAtRegistration := false }

/-! ## Concrete sample data for witnesses -/

/-- A concrete agents-table row (spec scenario S3/S4 shape). -/
def sampleRow : AgentRow :=
  { id := mkUuid 7
    provider := .localhost
    provider_instance_id := some "host-abc12345"
    hostname := "host"
    status := .ready
    tailscale_ip := some "100.64.0.2"
    gpu_info := none
    registered_at := 0
    last_seen_at := some 0
    terminated_at := none
    created_at := 0
    updated_at := 0 }

/-- A concrete GPU record (spec scenario S1 shape; `memory_gb` by bit
pattern). -/
def sampleGpu : GpuInfo :=
  { name := "NVIDIA X"
    memory_gb := 0x41C00000
    cuda_version := "12.4"
    compute_capability := some "8.6" }

/-- A concrete registration payload matching `sampleRow`'s identity. -/
def sampleInfo : AgentInfo :=
  { correlation_id := mkUuid 17
    provider := .localhost
    provider_instance_id := "host-abc12345"
    hostname := "host"
    gpu_info := sampleGpu
    tailscale_ip := "100.64.0.2"
    agent_version := "0.1.0" }

/-! ## Theorems -/

theorem hexDigitVal_hexDigitChar {n : Nat} (h : n < 16) :
    hexDigitVal (hexDigitChar n) = some n := by
  interval_cases n <;> decide

theorem hexDigitChar_ne_hyphen {n : Nat} (h : n < 16) : hexDigitChar n ≠ '-' := by
  interval_cases n <;> decide

theorem toHexDigits_length (k n : Nat) : (toHexDigits k n).length = k := by
  induction k generalizing n with
  | zero => simp [toHexDigits]
  | succ k ih => simp [toHexDigits, ih]

theorem mem_toHexDigits_ne_hyphen {k n : Nat} :
    ∀ c ∈ toHexDigits k n, c ≠ '-' := by
  induction k generalizing n with
  | zero => simp [toHexDigits]
  | succ k ih =>
    intro c hc
    simp only [toHexDigits, List.mem_append, List.mem_singleton] at hc
    rcases hc with hc | hc
    · exact ih c hc
    · subst hc
      exact hexDigitChar_ne_hyphen (Nat.mod_lt n (by norm_num))

theorem parseHexAcc_append (acc : Nat) (xs ys : List Char) :
    parseHexAcc acc (xs ++ ys) =
      match parseHexAcc acc xs with
      | some a => parseHexAcc a ys
      | none => none := by
  induction xs generalizing acc with
  | nil => simp [parseHexAcc]
  | cons c cs ih =>
    simp only [List.cons_append, parseHexAcc]
    cases hexDigitVal c with
    | some v => exact ih _
    | none => rfl

theorem parseHexAcc_toHexDigits :
    ∀ (k n acc : Nat), n < 16 ^ k →
      parseHexAcc acc (toHexDigits k n) = some (acc * 16 ^ k + n)
  | 0, n, acc, h => by
    have hn : n = 0 := Nat.lt_one_iff.mp (by simpa using h)
    simp [toHexDigits, parseHexAcc, hn]
  | k + 1, n, acc, h => by
    have hdiv : n / 16 < 16 ^ k := by
      rw [Nat.div_lt_iff_lt_mul (by norm_num : 0 < 16)]
      calc n < 16 ^ (k + 1) := h
        _ = 16 ^ k * 16 := by ring
    have hmod : n % 16 < 16 := Nat.mod_lt n (by norm_num)
    rw [toHexDigits, parseHexAcc_append,
      parseHexAcc_toHexDigits k (n / 16) acc hdiv]
    simp only [parseHexAcc, hexDigitVal_hexDigitChar hmod]
    have key : (acc * 16 ^ k + n / 16) * 16 + n % 16 = acc * 16 ^ (k + 1) + n := by
      rw [pow_succ, ← mul_assoc]
      generalize acc * 16 ^ k = B
      omega
    rw [key]

theorem parseUuidChars_pieces (ds : List Char) (hlen : ds.length = 32)
    (hmem : ∀ c ∈ ds, c ≠ '-') :
    parseUuidChars (['-'].intercalate [ds.take 8, (ds.drop 8).take 4,
      (ds.drop 12).take 4, (ds.drop 16).take 4, ds.drop 20]) =
      parseHexAcc 0 ds := by
  have hnohy : ∀ l ∈ [ds.take 8, (ds.drop 8).take 4, (ds.drop 12).take 4,
      (ds.drop 16).take 4, ds.drop 20], '-' ∉ l := by
    intro l hl hcl
    simp only [List.mem_cons, List.mem_singleton] at hl
    rcases hl with rfl | rfl | rfl | rfl | rfl | h
    · exact hmem _ (List.mem_of_mem_take hcl) rfl
    · exact hmem _ (List.mem_of_mem_drop (List.mem_of_mem_take hcl)) rfl
    · exact hmem _ (List.mem_of_mem_drop (List.mem_of_mem_take hcl)) rfl
    · exact hmem _ (List.mem_of_mem_drop (List.mem_of_mem_take hcl)) rfl
    · exact hmem _ (List.mem_of_mem_drop hcl) rfl
    · exact absurd h (List.not_mem_nil _)
  have hsplit : (['-'].intercalate [ds.take 8, (ds.drop 8).take 4,
      (ds.drop 12).take 4, (ds.drop 16).take 4, ds.drop 20]).splitOn '-' =
      [ds.take 8, (ds.drop 8).take 4, (ds.drop 12).take 4, (ds.drop 16).take 4,
        ds.drop 20] :=
    List.splitOn_intercalate [ds.take 8, (ds.drop 8).take 4,
      (ds.drop 12).take 4, (ds.drop 16).take 4, ds.drop 20] '-' hnohy (by simp)
  have hre : ds.take 8 ++ ((ds.drop 8).take 4 ++ ((ds.drop 12).take 4 ++
      ((ds.drop 16).take 4 ++ ds.drop 20))) = ds := by
    have e20 : ds.drop 20 = (ds.drop 16).drop 4 := by
      rw [List.drop_drop]
    have e16 : (ds.drop 16).take 4 ++ ds.drop 20 = ds.drop 16 := by
      rw [e20, List.take_append_drop]
    have e12a : ds.drop 16 = (ds.drop 12).drop 4 := by
      rw [List.drop_drop]
    have e12 : (ds.drop 12).take 4 ++ ds.drop 16 = ds.drop 12 := by
      rw [e12a, List.take_append_drop]
    have e8a : ds.drop 12 = (ds.drop 8).drop 4 := by
      rw [List.drop_drop]
    have e8 : (ds.drop 8).take 4 ++ ds.drop 12 = ds.drop 8 := by
      rw [e8a, List.take_append_drop]
    rw [e16, e12, e8, List.take_append_drop]
  unfold parseUuidChars
  rw [hsplit]
  split
  next a b c d e heq =>
    simp only [List.cons.injEq, and_true] at heq
    obtain ⟨ha, hb, hc, hd, he⟩ := heq
    subst ha hb hc hd he
    rw [if_pos ⟨by simp [hlen], by simp [hlen], by simp [hlen], by simp [hlen],
      by simp [hlen]⟩]
    simp only [List.append_assoc]
    rw [hre]
  next x hne =>
    exact absurd rfl (hne _ _ _ _ _)

theorem parseUuidChars_uuidChars (u : Uuid) :
    parseUuidChars (uuidChars u) = some u.val := by
  show parseUuidChars (['-'].intercalate
    [(toHexDigits 32 u.val).take 8, ((toHexDigits 32 u.val).drop 8).take 4,
      ((toHexDigits 32 u.val).drop 12).take 4,
      ((toHexDigits 32 u.val).drop 16).take 4,
      (toHexDigits 32 u.val).drop 20]) = some u.val
  rw [parseUuidChars_pieces (toHexDigits 32 u.val) (toHexDigits_length _ _)
    mem_toHexDigits_ne_hyphen]
  rw [parseHexAcc_toHexDigits 32 u.val 0 u.isLt]
  simp

theorem decodeUuid_encodeUuid (u : Uuid) : decodeUuid (encodeUuid u) = some u := by
  have hdata : (String.mk (uuidChars u)).data = uuidChars u := rfl
  simp only [decodeUuid, encodeUuid, hdata, parseUuidChars_uuidChars]
  show (if hn : (u.val : Nat) < 2 ^ 128 then some (⟨u.val, hn⟩ : Uuid)
    else none) = some u
  rw [dif_pos u.isLt]

theorem providerOfName_providerName (p : ProviderType) :
    providerOfName (providerName p) = some p := by
  cases p <;> decide

theorem decodeGpuInfo_encodeGpuInfo (g : GpuInfo) :
    decodeGpuInfo (encodeGpuInfo g) = some g := by
  obtain ⟨name, mem, cv, cc⟩ := g
  cases cc <;> simp [encodeGpuInfo, decodeGpuInfo, getField]

theorem decodeAgentMessage_encodeAgentMessage (m : AgentMessage) :
    decodeAgentMessage (encodeAgentMessage m) = some m := by
  cases m with
  | register info =>
    obtain ⟨cid, p, pid, hn, g, ip, av⟩ := info
    simp [encodeAgentMessage, decodeAgentMessage, getField,
      decodeUuid_encodeUuid, providerOfName_providerName,
      decodeGpuInfo_encodeGpuInfo]
  | heartbeatAck hb =>
    obtain ⟨cid, t⟩ := hb
    simp [encodeAgentMessage, decodeAgentMessage, getField,
      decodeUuid_encodeUuid, decodeTime, encodeTime]

theorem decodeHubMessage_encodeHubMessage (m : HubMessage) :
    decodeHubMessage (encodeHubMessage m) = some m := by
  cases m with
  | registerAck r =>
    obtain ⟨cid, aid, rt, hv⟩ := r
    simp [encodeHubMessage, decodeHubMessage, getField,
      decodeUuid_encodeUuid, decodeTime, encodeTime]
  | heartbeat h =>
    obtain ⟨cid, t, sq⟩ := h
    simp [encodeHubMessage, decodeHubMessage, getField,
      decodeUuid_encodeUuid, decodeTime, encodeTime]
  | error msg code cid =>
    cases cid <;>
      simp [encodeHubMessage, decodeHubMessage, getField,
        decodeUuid_encodeUuid]

/-! ## Backoff facts (client.rs:64–111) -/

theorem backoffMs_bounds (n : Nat) :
    reconnectInitialBackoffMs ≤ backoffMs n ∧
      backoffMs n ≤ reconnectMaxBackoffMs := by
  induction n with
  | zero => decide
  | succ n ih =>
    obtain ⟨h1, h2⟩ := ih
    simp only [backoffMs, reconnectInitialBackoffMs,
      reconnectMaxBackoffMs] at *
    omega

theorem backoffMs_mono (n : Nat) : backoffMs n ≤ backoffMs (n + 1) := by
  obtain ⟨h1, h2⟩ := backoffMs_bounds n
  simp only [backoffMs, reconnectInitialBackoffMs, reconnectMaxBackoffMs] at *
  omega

/-! ## Claim theorems -/

/-- C8: for every wire message variant (agent→hub: `register`,
`heartbeat_ack`; hub→agent: `register_ack`, `heartbeat`, `error`),
JSON-encoding and then decoding yields the original message; in
particular the correlation-id survives bit-exactly (its 128-bit value
round-trips through the hyphenated lowercase hex string). -/
theorem wire_roundtrip_identity :
    (∀ m : AgentMessage, decodeAgentMessage (encodeAgentMessage m) = some m) ∧
    (∀ m : HubMessage, decodeHubMessage (encodeHubMessage m) = some m) :=
  ⟨decodeAgentMessage_encodeAgentMessage, decodeHubMessage_encodeHubMessage⟩

/-- C2 counterexample: with the hub unreachable, the 7th connect
attempt happens at t = 63s and the 8th at t = 123s — the claimed
t ≈ 60s is missed by 3s, far beyond the ±200ms tolerance; moreover the
backoff resets to 1s after a session that reached Connected and ended
with a websocket error, which is not a clean close, refuting the
"resets only after a clean close" part. -/
theorem backoff_schedule_counterexample :
    attemptTimeMs 6 = 63000 ∧ attemptTimeMs 7 = 123000 ∧
    60000 + 200 < attemptTimeMs 6 ∧
    nextBackoffMs 32000 (.closedAfterConnected .wsError) =
      reconnectInitialBackoffMs := by
  decide

/-- C2 (amended): the reconnect backoff starts at 1s, doubles after
each consecutive failure and is capped at 60s, so connect attempts
against an unreachable hub occur at t = 0, 1, 3, 7, 15, 31, 63, 123
seconds; the backoff is non-decreasing within a failure streak, stays
within [1s, 60s], and resets to 1s after any session that reached
Connected ends, whatever the close reason. -/
theorem backoff_amended :
    (∀ n, reconnectInitialBackoffMs ≤ backoffMs n ∧
      backoffMs n ≤ reconnectMaxBackoffMs) ∧
    (∀ n, backoffMs n ≤ backoffMs (n + 1)) ∧
    (attemptTimeMs 0 = 0 ∧ attemptTimeMs 1 = 1000 ∧
      attemptTimeMs 2 = 3000 ∧ attemptTimeMs 3 = 7000 ∧
      attemptTimeMs 4 = 15000 ∧ attemptTimeMs 5 = 31000 ∧
      attemptTimeMs 6 = 63000 ∧ attemptTimeMs 7 = 123000) ∧
    (∀ b r, nextBackoffMs b (.closedAfterConnected r) =
      reconnectInitialBackoffMs) ∧
    (∀ b, nextBackoffMs b .failedBeforeConnected =
      min (b * 2) reconnectMaxBackoffMs) :=
  ⟨backoffMs_bounds, backoffMs_mono, by decide, fun _ _ => rfl, fun _ => rfl⟩

/-- C1: the claim says the heartbeat monitor tears down the session
once 30s pass without a heartbeat.  In the code the monitor's deadline
branch (client.rs:183–186) only logs and `break`s out of the monitor's
own loop: a tick observing 35s elapsed stops the monitor
(`monitorStep false 35 = .stopsItself`), yet with no inbound events and
no shutdown the session loop reports no close
(`closeReasonOf [] = none`), and every close the loop can ever report
arises from shutdown, a close frame, a websocket error or stream end —
never from the heartbeat deadline.  The session therefore can remain
open indefinitely past the deadline, contradicting the claim. -/
theorem heartbeat_timeout_no_teardown :
    monitorDetects [35] = true ∧
    monitorStep false 35 = .stopsItself ∧
    closeReasonOf [] = none ∧
    (∀ evs : List SessionEvent, (closeReasonOf evs).getD "still_open" ∈
      (["still_open", "shutdown", "hub_closed", "error",
        "stream_ended"] : List String)) := by
  refine ⟨rfl, rfl, rfl, ?_⟩
  intro evs
  induction evs with
  | nil => decide
  | cons e es ih =>
    cases e
    case shutdownSignal => simp [closeReasonOf]
    case closeFrame => simp [closeReasonOf]
    case wsError => simp [closeReasonOf]
    case streamEnded => simp [closeReasonOf]
    case textFrame j => simpa [closeReasonOf] using ih
    case pingOrPong => simpa [closeReasonOf] using ih
    case otherFrame => simpa [closeReasonOf] using ih

/-! ## Registry send facts (state.rs:36–46) -/

/-- In an association list with distinct keys, `find?` by key returns
the stored pair. -/
theorem assoc_find?_eq {β : Type} (l : List (Uuid × β)) (id : Uuid) (b : β)
    (hmem : (id, b) ∈ l) (hnd : (l.map Prod.fst).Nodup) :
    l.find? (fun p => p.1 == id) = some (id, b) := by
  induction l with
  | nil => cases hmem
  | cons p rest ih =>
    rcases List.mem_cons.mp hmem with h | hmem2
    · rw [← h]
      have htrue : ((id : Uuid) == id) = true := by simp
      simp [List.find?, htrue]
    · simp only [List.map_cons, List.nodup_cons] at hnd
      obtain ⟨hp, hnd2⟩ := hnd
      have hidmem : id ∈ rest.map Prod.fst :=
        List.mem_map.mpr ⟨(id, b), hmem2, rfl⟩
      have hfalse : (p.1 == id) = false := by
        cases hb : (p.1 == id)
        · rfl
        · exact absurd (beq_iff_eq.mp hb ▸ hidmem) hp
      simp only [List.find?, hfalse]
      exact ih hmem2 hnd2

/-- C7 counterexample: an agent present in the registry whose 32-slot
queue is full and open.  `send_to_agent` then suspends on tokio's
bounded `Sender::send`, which has no timeout: the saturation is not
reported to the caller within any bounded enqueue interval,
contradicting the claim. -/
theorem send_full_queue_counterexample :
    send_to_agent [(mkUuid 1, ⟨32, false⟩)] (mkUuid 1) = .waitsUnbounded := by
  rfl

/-- C7 (amended): `send_to_agent` returns not-connected exactly when
the id is absent from the connection map; when the id is present it
returns an error only when that agent's queue endpoint is closed
(the receiver was dropped); with a free slot the message is enqueued;
and when the 32-slot queue is full but open the call waits for a slot
with no bound instead of reporting the saturation. -/
theorem send_to_agent_amended (connections : List (Uuid × OutboundQueue))
    (id : Uuid) (q : OutboundQueue)
    (hnd : (connections.map Prod.fst).Nodup) :
    ((∀ p ∈ connections, p.1 ≠ id) →
      send_to_agent connections id = .notConnected) ∧
    ((id, q) ∈ connections →
      send_to_agent connections id =
        if q.closed then .channelClosedError
        else if q.queued < outboundQueueCapacity then .enqueued (q.queued + 1)
        else .waitsUnbounded) := by
  constructor
  · intro h
    have hfind : connections.find? (fun p => p.1 == id) = none := by
      rw [List.find?_eq_none]
      intro p hp
      simp only [beq_iff_eq]
      exact h p hp
    simp [send_to_agent, hfind]
  · intro hmem
    have hfind := assoc_find?_eq connections id q hmem hnd
    simp [send_to_agent, hfind]

/-- Witness for C7's amended theorem at a concrete registry. -/
theorem send_to_agent_amended_witness :
    (([(mkUuid 1, ⟨32, false⟩)] :
        List (Uuid × OutboundQueue)).map Prod.fst).Nodup ∧
    send_to_agent [(mkUuid 1, ⟨32, false⟩)] (mkUuid 1) =
      if (⟨32, false⟩ : OutboundQueue).closed then .channelClosedError
      else if (⟨32, false⟩ : OutboundQueue).queued < outboundQueueCapacity
        then .enqueued ((⟨32, false⟩ : OutboundQueue).queued + 1)
      else .waitsUnbounded :=
  ⟨by decide,
    (send_to_agent_amended [(mkUuid 1, ⟨32, false⟩)] (mkUuid 1) ⟨32, false⟩
      (by decide)).2 (by decide)⟩

/-! ## Sequence-map facts (heartbeat.rs:42–69) -/

theorem beq_false_of_ne {a b : Uuid} (h : a ≠ b) : (a == b) = false := by
  cases hab : (a == b)
  · rfl
  · exact absurd (beq_iff_eq.mp hab) h

theorem seqLookup_nil (a : Uuid) : seqLookup [] a = none := rfl

theorem seqLookup_cons (p : Uuid × Nat) (l : SeqMap) (a : Uuid) :
    seqLookup (p :: l) a =
      if p.1 == a then some p.2 else seqLookup l a := by
  simp only [seqLookup, List.find?]
  cases p.1 == a
  · simp
  · simp

theorem seqSet_cons (p : Uuid × Nat) (rest : SeqMap) (id : Uuid) (s : Nat) :
    seqSet (p :: rest) id s =
      if p.1 = id then (p.1, s) :: rest else p :: seqSet rest id s := rfl

theorem seqRemove_cons (p : Uuid × Nat) (rest : SeqMap) (id : Uuid) :
    seqRemove (p :: rest) id =
      if p.1 == id then seqRemove rest id else p :: seqRemove rest id := by
  simp only [seqRemove, List.filter_cons]
  cases h : p.1 == id
  · simp
  · simp

theorem seqLookup_seqSet_self (m : SeqMap) (id : Uuid) (s : Nat) :
    seqLookup (seqSet m id s) id = some s := by
  induction m with
  | nil =>
    simp [seqSet, seqLookup_cons]
  | cons p rest ih =>
    rw [seqSet_cons]
    by_cases hp : p.1 = id
    · rw [if_pos hp, seqLookup_cons]
      simp [hp]
    · rw [if_neg hp, seqLookup_cons, beq_false_of_ne hp]
      simpa using ih

theorem seqLookup_seqSet_other (m : SeqMap) (id a : Uuid) (s : Nat)
    (hne : a ≠ id) :
    seqLookup (seqSet m id s) a = seqLookup m a := by
  induction m with
  | nil =>
    simp [seqSet, seqLookup_cons, beq_false_of_ne (fun h => hne h.symm)]
  | cons p rest ih =>
    rw [seqSet_cons]
    by_cases hp : p.1 = id
    · have hpa : (p.1 == a) = false :=
        beq_false_of_ne (fun h => hne (h ▸ hp))
      rw [if_pos hp, seqLookup_cons, seqLookup_cons]
      simp only [hpa]
      have : ((p.1, s).1 == a) = false := hpa
      simp [this]
    · rw [if_neg hp, seqLookup_cons, seqLookup_cons]
      cases hpa : p.1 == a
      · simpa using ih
      · simp

theorem seqLookup_seqRemove_self (m : SeqMap) (id : Uuid) :
    seqLookup (seqRemove m id) id = none := by
  induction m with
  | nil => rfl
  | cons p rest ih =>
    by_cases hp : p.1 = id
    · rw [seqRemove_cons, if_pos (by simp [hp])]
      exact ih
    · rw [seqRemove_cons, if_neg (by simp [hp]), seqLookup_cons,
        beq_false_of_ne hp]
      simpa using ih

theorem seqLookup_seqRemove_other (m : SeqMap) (id a : Uuid) (hne : a ≠ id) :
    seqLookup (seqRemove m id) a = seqLookup m a := by
  induction m with
  | nil => rfl
  | cons p rest ih =>
    by_cases hp : p.1 = id
    · have hpa : (p.1 == a) = false :=
        beq_false_of_ne (fun h => hne (h ▸ hp))
      rw [seqRemove_cons, if_pos (by simp [hp]), seqLookup_cons, hpa]
      simpa using ih
    · rw [seqRemove_cons, if_neg (by simp [hp]), seqLookup_cons,
        seqLookup_cons]
      cases hpa : p.1 == a
      · simpa using ih
      · simp

theorem send_heartbeats_cons (c : Uuid) (rest : List Uuid)
    (sendOk : Uuid → Bool) (m : SeqMap) :
    send_heartbeats (c :: rest) sendOk m =
      if sendOk c then
        ((c, (seqLookup m c).getD 0 + 1) ::
          (send_heartbeats rest sendOk
            (seqSet m c ((seqLookup m c).getD 0 + 1))).1,
         (send_heartbeats rest sendOk
            (seqSet m c ((seqLookup m c).getD 0 + 1))).2)
      else
        send_heartbeats rest sendOk
          (seqRemove (seqSet m c ((seqLookup m c).getD 0 + 1)) c) := rfl

/-- Agents outside the snapshot keep their map entry and receive
nothing during a tick. -/
theorem send_heartbeats_not_mem (conns : List Uuid) (sendOk : Uuid → Bool)
    (m : SeqMap) (id : Uuid) (h : id ∉ conns) :
    seqLookup (send_heartbeats conns sendOk m).2 id = seqLookup m id ∧
    ∀ s, (id, s) ∉ (send_heartbeats conns sendOk m).1 := by
  induction conns generalizing m with
  | nil => exact ⟨rfl, fun s => List.not_mem_nil _⟩
  | cons c rest ih =>
    have hne : id ≠ c := fun hh => h (hh ▸ List.mem_cons_self c rest)
    have hrest : id ∉ rest := fun hh => h (List.mem_cons_of_mem c hh)
    rw [send_heartbeats_cons]
    by_cases hs : sendOk c = true
    · rw [if_pos hs]
      constructor
      · exact ((ih _ hrest).1).trans (seqLookup_seqSet_other m c id _ hne)
      · intro s hmem
        rcases List.mem_cons.mp hmem with heq | hmem2
        · exact hne (congrArg Prod.fst heq)
        · exact (ih _ hrest).2 s hmem2
    · rw [if_neg hs]
      refine ⟨?_, (ih _ hrest).2⟩
      rw [(ih _ hrest).1, seqLookup_seqRemove_other _ _ _ hne,
        seqLookup_seqSet_other m c id _ hne]

/-- What one tick does for an agent in the snapshot. -/
theorem send_heartbeats_mem (conns : List Uuid) (sendOk : Uuid → Bool)
    (m : SeqMap) (id : Uuid) (hmem : id ∈ conns) (hnd : conns.Nodup) :
    (sendOk id = true →
      (id, (seqLookup m id).getD 0 + 1) ∈ (send_heartbeats conns sendOk m).1 ∧
      seqLookup (send_heartbeats conns sendOk m).2 id =
        some ((seqLookup m id).getD 0 + 1)) ∧
    (sendOk id = false →
      seqLookup (send_heartbeats conns sendOk m).2 id = none ∧
      ∀ s, (id, s) ∉ (send_heartbeats conns sendOk m).1) := by
  induction conns generalizing m with
  | nil => cases hmem
  | cons c rest ih =>
    obtain ⟨hc, hndr⟩ := List.nodup_cons.mp hnd
    rcases List.mem_cons.mp hmem with rfl | hmem2
    · rw [send_heartbeats_cons]
      constructor
      · intro hok
        rw [if_pos hok]
        have hrest := send_heartbeats_not_mem rest sendOk
          (seqSet m id ((seqLookup m id).getD 0 + 1)) id hc
        refine ⟨List.mem_cons_self _ _, ?_⟩
        rw [hrest.1, seqLookup_seqSet_self]
      · intro hko
        rw [if_neg (by simp [hko])]
        have hrest := send_heartbeats_not_mem rest sendOk
          (seqRemove (seqSet m id ((seqLookup m id).getD 0 + 1)) id) id hc
        refine ⟨?_, hrest.2⟩
        rw [hrest.1, seqLookup_seqRemove_self]
    · have hne : id ≠ c := fun hh => hc (hh ▸ hmem2)
      rw [send_heartbeats_cons]
      have hlk : seqLookup (seqSet m c ((seqLookup m c).getD 0 + 1)) id =
          seqLookup m id := seqLookup_seqSet_other m c id _ hne
      by_cases hsc : sendOk c = true
      · rw [if_pos hsc]
        have ihm := ih (seqSet m c ((seqLookup m c).getD 0 + 1)) hmem2 hndr
        rw [hlk] at ihm
        constructor
        · intro hok
          exact ⟨List.mem_cons_of_mem _ (ihm.1 hok).1, (ihm.1 hok).2⟩
        · intro hko
          refine ⟨(ihm.2 hko).1, fun s hs => ?_⟩
          rcases List.mem_cons.mp hs with heq | hs2
          · exact hne (congrArg Prod.fst heq)
          · exact (ihm.2 hko).2 s hs2
      · rw [if_neg hsc]
        have hlk2 : seqLookup
            (seqRemove (seqSet m c ((seqLookup m c).getD 0 + 1)) c) id =
            seqLookup m id := by
          rw [seqLookup_seqRemove_other _ _ _ hne, hlk]
        have ihm := ih
          (seqRemove (seqSet m c ((seqLookup m c).getD 0 + 1)) c) hmem2 hndr
        rw [hlk2] at ihm
        exact ihm

/-- C6 counterexample: agent 1 registers and the first tick sends it
sequence 1; its registry entry is then destroyed
(`remove_connection`) and, before the next fanout tick, the agent
re-registers.  The next tick sends sequence 2: the fresh session does
not start again at 1, because destroying the registry entry did not
reset the per-agent counter — the counter lives in the fanout task and
is erased only when a heartbeat send fails (heartbeat.rs:63–67). -/
theorem heartbeat_sequence_counterexample :
    (hubRun ⟨[], [], []⟩
      [.connect (mkUuid 1), .tick (fun _ => true),
        .disconnect (mkUuid 1), .connect (mkUuid 1),
        .tick (fun _ => true)]).sent =
      [(mkUuid 1, 1), (mkUuid 1, 2)] := rfl

/-- C6 (amended): one fanout tick sends to each agent of the
duplicate-free snapshot the successor of its map entry (1 when the
entry is absent) and stores that value; a failed send erases the entry
and that agent receives nothing; agents outside the snapshot keep
their entry untouched; and neither destroying nor creating a registry
entry touches the fanout task's sequence map.  Sequences to one agent
therefore ascend by exactly 1, from 1, for as long as its map entry
lives — but the entry is erased only by a failed send, not by
registry-entry destruction, so a session re-registered under the same
id between ticks continues the previous numbering. -/
theorem heartbeat_sequence_amended (conns : List Uuid)
    (sendOk : Uuid → Bool) (m : SeqMap) (id : Uuid)
    (hmem : id ∈ conns) (hnd : conns.Nodup) :
    (sendOk id = true →
      (id, (seqLookup m id).getD 0 + 1) ∈ (send_heartbeats conns sendOk m).1 ∧
      seqLookup (send_heartbeats conns sendOk m).2 id =
        some ((seqLookup m id).getD 0 + 1)) ∧
    (sendOk id = false →
      seqLookup (send_heartbeats conns sendOk m).2 id = none ∧
      ∀ s, (id, s) ∉ (send_heartbeats conns sendOk m).1) ∧
    (∀ st : FanoutTrace, ∀ a : Uuid,
      (hubStep st (.disconnect a)).seqMap = st.seqMap ∧
      (hubStep st (.connect a)).seqMap = st.seqMap) :=
  ⟨(send_heartbeats_mem conns sendOk m id hmem hnd).1,
   (send_heartbeats_mem conns sendOk m id hmem hnd).2,
   fun _ _ => ⟨rfl, rfl⟩⟩

/-- Witness for C6's amended theorem at a concrete one-agent registry. -/
theorem heartbeat_sequence_amended_witness :
    ((mkUuid 1) ∈ ([mkUuid 1] : List Uuid) ∧
      ([mkUuid 1] : List Uuid).Nodup) ∧
    (((fun _ : Uuid => true) (mkUuid 1) = true →
      (mkUuid 1, (seqLookup [] (mkUuid 1)).getD 0 + 1) ∈
        (send_heartbeats [mkUuid 1] (fun _ => true) []).1 ∧
      seqLookup (send_heartbeats [mkUuid 1] (fun _ => true) []).2 (mkUuid 1) =
        some ((seqLookup [] (mkUuid 1)).getD 0 + 1)) ∧
    ((fun _ : Uuid => true) (mkUuid 1) = false →
      seqLookup (send_heartbeats [mkUuid 1] (fun _ => true) []).2 (mkUuid 1) =
        none ∧
      ∀ s, (mkUuid 1, s) ∉ (send_heartbeats [mkUuid 1] (fun _ => true) []).1) ∧
    (∀ st : FanoutTrace, ∀ a : Uuid,
      (hubStep st (.disconnect a)).seqMap = st.seqMap ∧
      (hubStep st (.connect a)).seqMap = st.seqMap)) :=
  ⟨⟨by decide, by decide⟩,
    heartbeat_sequence_amended [mkUuid 1] (fun _ => true) [] (mkUuid 1)
      (by decide) (by decide)⟩

/-! ## Reaper facts (cleanup.rs:38–92) -/

theorem markErrorRow_id (now : Timestamp) (r : AgentRow) :
    (markErrorRow now r).id = r.id := rfl

theorem markErrorRow_idem (now : Timestamp) (r : AgentRow) :
    markErrorRow now (markErrorRow now r) = markErrorRow now r := rfl

theorem reapIds_cons (id : Uuid) (rest : List Uuid) (updateOk : Uuid → Bool)
    (now : Timestamp) (db : List AgentRow) (conns : List Uuid) :
    reapIds (id :: rest) updateOk now db conns =
      if updateOk id then
        reapIds rest updateOk now (markError now id db)
          (remove_connection conns id)
      else reapIds rest updateOk now db conns := rfl

/-- The per-id reap loop, characterized pointwise: a row is rewritten
iff its id is among the processed ids whose UPDATE succeeded, and the
registry keeps exactly the ids outside that set. -/
theorem reapIds_characterization (ids : List Uuid) (updateOk : Uuid → Bool)
    (now : Timestamp) (db : List AgentRow) (conns : List Uuid) :
    (reapIds ids updateOk now db conns).1 =
      db.map (fun r => if r.id ∈ ids.filter updateOk then markErrorRow now r
        else r) ∧
    (reapIds ids updateOk now db conns).2 =
      conns.filter (fun a => !(decide (a ∈ ids.filter updateOk))) := by
  induction ids generalizing db conns with
  | nil =>
    constructor
    · simp [reapIds]
    · simp [reapIds]
  | cons id rest ih =>
    by_cases hu : updateOk id = true
    · have hfil : (id :: rest).filter updateOk = id :: rest.filter updateOk := by
        simp [List.filter_cons, hu]
      rw [reapIds_cons, if_pos hu]
      obtain ⟨h1, h2⟩ := ih (markError now id db) (remove_connection conns id)
      constructor
      · rw [h1, hfil]
        simp only [markError, List.map_map]
        apply List.map_congr_left
        intro r hr
        simp only [Function.comp_apply]
        by_cases hid : r.id = id
        · rw [if_pos hid]
          have hrhs : r.id ∈ id :: rest.filter updateOk := by
            rw [hid]
            exact List.mem_cons_self _ _
          rw [if_pos hrhs]
          by_cases hmem : (markErrorRow now r).id ∈ rest.filter updateOk
          · rw [if_pos hmem, markErrorRow_idem]
          · rw [if_neg hmem]
        · rw [if_neg hid]
          have hiff : (r.id ∈ id :: rest.filter updateOk) ↔
              (r.id ∈ rest.filter updateOk) := by
            simp [List.mem_cons, hid]
          by_cases hmem : r.id ∈ rest.filter updateOk
          · rw [if_pos hmem, if_pos (hiff.mpr hmem)]
          · rw [if_neg hmem, if_neg (fun h => hmem (hiff.mp h))]
      · rw [h2, hfil]
        simp only [remove_connection, List.filter_filter]
        apply List.filter_congr
        intro a ha
        by_cases haid : a = id
        · simp [haid]
        · by_cases hamem : a ∈ rest.filter updateOk
          · simp [haid, hamem, List.mem_cons, bne_iff_ne]
          · simp [haid, hamem, List.mem_cons, bne_iff_ne]
    · have hfil : (id :: rest).filter updateOk = rest.filter updateOk := by
        simp [List.filter_cons, hu]
      rw [reapIds_cons, if_neg hu, hfil]
      exact ih db conns

/-- C5: one reaper tick, over a table with distinct row ids, rewrites
exactly the stale rows (status in ready/running/idle, last_seen_at
older than 30s) whose UPDATE succeeds, setting status error and
updated_at to now; every other row — including a stale row whose
UPDATE fails, which therefore stays eligible for the next tick — is
untouched; and the registry drops exactly the successfully updated
ids, keeping ids whose UPDATE failed. -/
theorem reaper_tick_characterization (db : List AgentRow)
    (conns : List Uuid) (now : Timestamp) (updateOk : Uuid → Bool)
    (hnd : (db.map (fun r => r.id)).Nodup) :
    (cleanup_stale_agents db conns now updateOk).1 =
      db.map (fun r => if isStale now r && updateOk r.id
        then markErrorRow now r else r) ∧
    (cleanup_stale_agents db conns now updateOk).2 =
      conns.filter (fun a => !(decide (a ∈
        ((db.filter (isStale now)).map (fun r => r.id)).filter updateOk))) := by
  obtain ⟨h1, h2⟩ := reapIds_characterization
    ((db.filter (isStale now)).map (fun r => r.id)) updateOk now db conns
  refine ⟨?_, h2⟩
  unfold cleanup_stale_agents
  rw [h1]
  apply List.map_congr_left
  intro r hr
  by_cases hcond : r.id ∈
      (((db.filter (isStale now)).map (fun r => r.id)).filter updateOk)
  · obtain ⟨hmem, hok⟩ := List.mem_filter.mp hcond
    obtain ⟨r2, hr2, hid2⟩ := List.mem_map.mp hmem
    obtain ⟨hr2db, hstale2⟩ := List.mem_filter.mp hr2
    have : r2 = r := List.inj_on_of_nodup_map hnd hr2db hr hid2
    subst this
    rw [if_pos hcond, if_pos (by rw [hstale2, hok]; rfl)]
  · rw [if_neg hcond]
    by_cases hstale : isStale now r = true
    · have hnotok : updateOk r.id = false := by
        cases hok : updateOk r.id
        · rfl
        · exact absurd (List.mem_filter.mpr
            ⟨List.mem_map.mpr ⟨r, List.mem_filter.mpr ⟨hr, hstale⟩, rfl⟩, hok⟩)
            hcond
      rw [if_neg (by simp [hstale, hnotok])]
    · rw [if_neg (by simp [hstale])]

/-- Witness for C5's reaper theorem on a one-row table. -/
theorem reaper_tick_witness :
    (([sampleRow].map (fun r => r.id)).Nodup) ∧
    ((cleanup_stale_agents [sampleRow] [mkUuid 7, mkUuid 8] 100
        (fun _ => true)).1 =
      [sampleRow].map (fun r =>
        if isStale 100 r && (fun _ : Uuid => true) r.id
        then markErrorRow 100 r else r) ∧
    (cleanup_stale_agents [sampleRow] [mkUuid 7, mkUuid 8] 100
        (fun _ => true)).2 =
      [mkUuid 7, mkUuid 8].filter (fun a => !(decide (a ∈
        (([sampleRow].filter (isStale 100)).map (fun r => r.id)).filter
          (fun _ => true))))) :=
  ⟨by decide,
    reaper_tick_characterization [sampleRow] [mkUuid 7, mkUuid 8] 100
      (fun _ => true) (by decide)⟩

/-! ## Identity-resolution facts (handler.rs:190–266) -/

/-- `find?` returns the unique element satisfying the predicate. -/
theorem find?_of_unique {α : Type} (p : α → Bool) (l : List α) (a : α)
    (ha : a ∈ l) (hp : p a = true) (huniq : ∀ b ∈ l, p b = true → b = a) :
    l.find? p = some a := by
  induction l with
  | nil => cases ha
  | cons x xs ih =>
    by_cases hx : p x = true
    · have hxa : x = a := huniq x (List.mem_cons_self x xs) hx
      subst hxa
      simp [List.find?, hx]
    · have hxf : p x = false := by
        cases h : p x
        · rfl
        · exact absurd h hx
      simp only [List.find?, hxf]
      rcases List.mem_cons.mp ha with rfl | ha2
      · exact absurd hp hx
      · exact ih ha2 (fun b hb hpb => huniq b (List.mem_cons_of_mem _ hb) hpb)

/-- C3: registration resolution.  If the table holds a unique live row
matching (tailscale_ip, provider_instance_id) with terminated_at NULL,
`create_agent_record` returns THAT row's stored id, reuses it, and
rewrites exactly that row (status registering, hostname, gpu_info,
last_seen_at = NOW); any matched row necessarily has
terminated_at = NULL, so terminated rows are never reused.  If no row
matches, a fresh row with status registering and
registered_at = last_seen_at = NOW is appended and the fresh id is
returned. -/
theorem registration_resolution (db : List AgentRow) (req : AgentInfo)
    (now : Timestamp) (freshId : Uuid) :
    (∀ row ∈ db, matchesRegistration req row = true →
      (∀ r ∈ db, matchesRegistration req r = true → r = row) →
      (create_agent_record db req now freshId).agent_id = row.id ∧
      (create_agent_record db req now freshId).reused = true ∧
      row.terminated_at = none ∧
      (create_agent_record db req now freshId).db =
        (db.map fun r => if r.id = row.id then reRegisterUpdate req now r
          else r)) ∧
    ((∀ row ∈ db, matchesRegistration req row = false) →
      (create_agent_record db req now freshId).agent_id = freshId ∧
      (create_agent_record db req now freshId).reused = false ∧
      (create_agent_record db req now freshId).db =
        db ++ [insertedRow req now freshId] ∧
      (insertedRow req now freshId).status = .registering ∧
      (insertedRow req now freshId).registered_at = now ∧
      (insertedRow req now freshId).last_seen_at = some now ∧
      (insertedRow req now freshId).terminated_at = none) := by
  constructor
  · intro row hrow hmatch huniq
    have hfind : db.find? (matchesRegistration req) = some row :=
      find?_of_unique _ db row hrow hmatch huniq
    have hterm : row.terminated_at = none := by
      have hm := hmatch
      unfold matchesRegistration at hm
      simp only [Bool.and_eq_true, beq_iff_eq] at hm
      exact hm.2
    refine ⟨?_, ?_, hterm, ?_⟩ <;> simp [create_agent_record, hfind]
  · intro hnone
    have hfind : db.find? (matchesRegistration req) = none := by
      rw [List.find?_eq_none]
      intro r hr
      simp [hnone r hr]
    refine ⟨?_, ?_, ?_, rfl, rfl, rfl, rfl⟩ <;>
      simp [create_agent_record, hfind]

/-- Witness for C3 on a one-row table (reuse) and the empty table
(insert). -/
theorem registration_resolution_witness :
    (sampleRow ∈ [sampleRow] ∧
      matchesRegistration sampleInfo sampleRow = true) ∧
    ((create_agent_record [sampleRow] sampleInfo 50 (mkUuid 9)).agent_id =
        sampleRow.id ∧
      (create_agent_record [sampleRow] sampleInfo 50 (mkUuid 9)).reused =
        true ∧
      sampleRow.terminated_at = none ∧
      (create_agent_record [sampleRow] sampleInfo 50 (mkUuid 9)).db =
        ([sampleRow].map fun r => if r.id = sampleRow.id
          then reRegisterUpdate sampleInfo 50 r else r)) ∧
    ((create_agent_record [] sampleInfo 50 (mkUuid 9)).agent_id =
        mkUuid 9 ∧
      (create_agent_record [] sampleInfo 50 (mkUuid 9)).reused = false ∧
      (create_agent_record [] sampleInfo 50 (mkUuid 9)).db =
        [] ++ [insertedRow sampleInfo 50 (mkUuid 9)] ∧
      (insertedRow sampleInfo 50 (mkUuid 9)).status = .registering ∧
      (insertedRow sampleInfo 50 (mkUuid 9)).registered_at = 50 ∧
      (insertedRow sampleInfo 50 (mkUuid 9)).last_seen_at = some 50 ∧
      (insertedRow sampleInfo 50 (mkUuid 9)).terminated_at = none) :=
  ⟨⟨List.mem_singleton.mpr rfl, by decide⟩,
    (registration_resolution [sampleRow] sampleInfo 50 (mkUuid 9)).1
      sampleRow (List.mem_singleton.mpr rfl) (by decide)
      (fun r hr _ => List.mem_singleton.mp hr),
    (registration_resolution [] sampleInfo 50 (mkUuid 9)).2
      (fun row hrow => absurd hrow (List.not_mem_nil row))⟩

/-- C10: whether registration reuses an existing row or inserts a new
one, every pre-existing row of the table keeps its id, provider,
provider_instance_id, tailscale_ip, registered_at, terminated_at,
created_at and updated_at: the reuse UPDATE (handler.rs:223–238)
touches only status, hostname, gpu_info and last_seen_at, and it never
reads the incoming provider or agent_version — the statement holds for
every `req`. -/
theorem reuse_frame_condition (db : List AgentRow) (req : AgentInfo)
    (now : Timestamp) (freshId : Uuid) (i : Nat) (h : i < db.length) :
    ∃ r r2, db[i]? = some r ∧
      ((create_agent_record db req now freshId).db)[i]? = some r2 ∧
      r2.id = r.id ∧ r2.provider = r.provider ∧
      r2.provider_instance_id = r.provider_instance_id ∧
      r2.tailscale_ip = r.tailscale_ip ∧
      r2.registered_at = r.registered_at ∧
      r2.terminated_at = r.terminated_at ∧
      r2.created_at = r.created_at ∧
      r2.updated_at = r.updated_at := by
  cases hfind : db.find? (matchesRegistration req) with
  | some row =>
    have hdb : (create_agent_record db req now freshId).db =
        (db.map fun r => if r.id = row.id then reRegisterUpdate req now r
          else r) := by
      simp [create_agent_record, hfind]
    refine ⟨db.get ⟨i, h⟩,
      if (db.get ⟨i, h⟩).id = row.id
        then reRegisterUpdate req now (db.get ⟨i, h⟩) else db.get ⟨i, h⟩,
      by simp [List.getElem?_eq_getElem h], ?_, ?_⟩
    · rw [hdb, List.getElem?_map, List.getElem?_eq_getElem h]
      simp
    · by_cases hid : (db.get ⟨i, h⟩).id = row.id
      · rw [if_pos hid]
        exact ⟨rfl, rfl, rfl, rfl, rfl, rfl, rfl, rfl⟩
      · rw [if_neg hid]
        exact ⟨rfl, rfl, rfl, rfl, rfl, rfl, rfl, rfl⟩
  | none =>
    have hdb : (create_agent_record db req now freshId).db =
        db ++ [insertedRow req now freshId] := by
      simp [create_agent_record, hfind]
    refine ⟨db.get ⟨i, h⟩, db.get ⟨i, h⟩,
      by simp [List.getElem?_eq_getElem h], ?_,
      rfl, rfl, rfl, rfl, rfl, rfl, rfl, rfl⟩
    rw [hdb, List.getElem?_append, if_pos h]
    simp [List.getElem?_eq_getElem h]

/-- Witness for C10 on a one-row table. -/
theorem reuse_frame_condition_witness :
    0 < ([sampleRow] : List AgentRow).length ∧
    (∃ r r2, ([sampleRow] : List AgentRow)[0]? = some r ∧
      ((create_agent_record [sampleRow] sampleInfo 50 (mkUuid 9)).db)[0]? =
        some r2 ∧
      r2.id = r.id ∧ r2.provider = r.provider ∧
      r2.provider_instance_id = r.provider_instance_id ∧
      r2.tailscale_ip = r.tailscale_ip ∧
      r2.registered_at = r.registered_at ∧
      r2.terminated_at = r.terminated_at ∧
      r2.created_at = r.created_at ∧
      r2.updated_at = r.updated_at) :=
  ⟨by decide,
    reuse_frame_condition [sampleRow] sampleInfo 50 (mkUuid 9) 0 (by decide)⟩

/-! ## Handshake facts (handler.rs:21–150) -/

/-- C4: the hub awaits the first inbound frame for up to 30 seconds
(`registrationTimeoutSecs`); if it never arrives, is not a text frame,
fails to parse, or is a heartbeat_ack, the handler closes without
writing any frame and the table is unchanged — no agent row is
inserted.  If it is a register message (and the database cooperates),
the handler transmits exactly one handshake frame — a register_ack
carrying the original correlation-id, the resolved agent-id, the hub
version and the registration timestamp — and only afterwards runs the
inbound loop, which starts from the post-registration table. -/
theorem handshake_behaviour (rest : List HubLoopEvent) (db : List AgentRow)
    (now : Timestamp) (freshId : Uuid) (dbOk : Bool) (j : Json)
    (req : AgentInfo) :
    registrationTimeoutSecs = 30 ∧
    (handle_agent_socket none rest db now freshId dbOk =
      ⟨[], db, none, true⟩) ∧
    (handle_agent_socket (some .closeFrame) rest db now freshId dbOk =
      ⟨[], db, none, true⟩) ∧
    (handle_agent_socket (some .pingFrame) rest db now freshId dbOk =
      ⟨[], db, none, true⟩) ∧
    (handle_agent_socket (some .binaryOrOther) rest db now freshId dbOk =
      ⟨[], db, none, true⟩) ∧
    (decodeAgentMessage j = none →
      handle_agent_socket (some (.text j)) rest db now freshId dbOk =
        ⟨[], db, none, true⟩) ∧
    (∀ hb, decodeAgentMessage j = some (.heartbeatAck hb) →
      handle_agent_socket (some (.text j)) rest db now freshId dbOk =
        ⟨[], db, none, true⟩) ∧
    (decodeAgentMessage j = some (.register req) →
      handle_agent_socket (some (.text j)) rest db now freshId true =
        { sentDuringHandshake := [encodeHubMessage (.registerAck
            { correlation_id := req.correlation_id
              agent_id := (create_agent_record db req now freshId).agent_id
              registered_at := now
              hub_version := hubVersion })]
          db := hubSessionLoop
            (create_agent_record db req now freshId).agent_id
            (create_agent_record db req now freshId).db rest
          registeredAs :=
            some (create_agent_record db req now freshId).agent_id
          closedAtRegistration := false }) := by
  refine ⟨rfl, rfl, rfl, rfl, rfl, ?_, ?_, ?_⟩
  · intro hdec
    simp [handle_agent_socket, wait_for_registration, hdec]
  · intro hb hdec
    simp [handle_agent_socket, wait_for_registration, hdec]
  · intro hdec
    simp [handle_agent_socket, wait_for_registration, hdec]

/-- Witness for C4 with a concrete register frame produced by the
codec. -/
theorem handshake_behaviour_witness :
    decodeAgentMessage (encodeAgentMessage (.register sampleInfo)) =
      some (.register sampleInfo) ∧
    handle_agent_socket
        (some (.text (encodeAgentMessage (.register sampleInfo)))) [] [] 7
        (mkUuid 9) true =
      { sentDuringHandshake := [encodeHubMessage (.registerAck
          { correlation_id := sampleInfo.correlation_id
            agent_id := (create_agent_record [] sampleInfo 7
              (mkUuid 9)).agent_id
            registered_at := 7
            hub_version := hubVersion })]
        db := hubSessionLoop
          (create_agent_record [] sampleInfo 7 (mkUuid 9)).agent_id
          (create_agent_record [] sampleInfo 7 (mkUuid 9)).db []
        registeredAs :=
          some (create_agent_record [] sampleInfo 7 (mkUuid 9)).agent_id
        closedAtRegistration := false } :=
  ⟨decodeAgentMessage_encodeAgentMessage (.register sampleInfo),
    (handshake_behaviour [] [] 7 (mkUuid 9) true
      (encodeAgentMessage (.register sampleInfo))
      sampleInfo).2.2.2.2.2.2.2
      (decodeAgentMessage_encodeAgentMessage (.register sampleInfo))⟩

/-- C9 counterexample: the register message arrives intact but the
database fails during registration.  The hub closes the session having
sent NOTHING: in particular no error envelope with code
"registration_failed" is transmitted (handler.rs:32–36 only logs and
closes the socket; that code string occurs nowhere in the hub). -/
theorem registration_failure_counterexample :
    (handle_agent_socket
      (some (.text (encodeAgentMessage (.register sampleInfo)))) [] [] 0
      (mkUuid 2) false).sentDuringHandshake = [] ∧
    (handle_agent_socket
      (some (.text (encodeAgentMessage (.register sampleInfo)))) [] [] 0
      (mkUuid 2) false).closedAtRegistration = true := by
  have hdec := decodeAgentMessage_encodeAgentMessage (.register sampleInfo)
  constructor <;>
    simp [handle_agent_socket, wait_for_registration, hdec]

/-- C9 (amended): a persistence failure during registration aborts the
registration and the hub closes the session without sending anything —
no error envelope of any code; a failure updating last_seen_at after a
heartbeat ack is logged and swallowed, the inbound loop continuing
with the table unchanged; and a reaper UPDATE failure leaves the row
and its registry entry untouched, so the next tick selects it again. -/
theorem persistence_failure_amended (db : List AgentRow)
    (rest : List HubLoopEvent) (now : Timestamp) (freshId : Uuid)
    (j : Json) (req : AgentInfo) (agentId : Uuid) (conns : List Uuid)
    (updateOk : Uuid → Bool) (r : AgentRow) :
    (decodeAgentMessage j = some (.register req) →
      handle_agent_socket (some (.text j)) rest db now freshId false =
        ⟨[], db, none, true⟩) ∧
    (hubSessionLoop agentId db (.item (.text j) now false :: rest) =
      hubSessionLoop agentId db rest) ∧
    (r ∈ db → updateOk r.id = false →
      r ∈ (cleanup_stale_agents db conns now updateOk).1) ∧
    (∀ a ∈ conns, updateOk a = false →
      a ∈ (cleanup_stale_agents db conns now updateOk).2) := by
  refine ⟨?_, ?_, ?_, ?_⟩
  · intro hdec
    simp [handle_agent_socket, wait_for_registration, hdec]
  · cases hdec : decodeAgentMessage j with
    | none => simp [hubSessionLoop, handle_agent_message, hdec]
    | some am =>
      cases am with
      | register info => simp [hubSessionLoop, handle_agent_message, hdec]
      | heartbeatAck hb => simp [hubSessionLoop, handle_agent_message, hdec]
  · intro hr hfail
    obtain ⟨h1, _⟩ := reapIds_characterization
      ((db.filter (isStale now)).map (fun x => x.id)) updateOk now db conns
    unfold cleanup_stale_agents
    rw [h1]
    have hfr : (if r.id ∈
        (((db.filter (isStale now)).map (fun x => x.id)).filter updateOk)
        then markErrorRow now r else r) = r := by
      rw [if_neg]
      intro hmem
      have := (List.mem_filter.mp hmem).2
      rw [hfail] at this
      cases this
    have hmm := List.mem_map_of_mem (fun r => if r.id ∈
      (((db.filter (isStale now)).map (fun x => x.id)).filter updateOk)
      then markErrorRow now r else r) hr
    simpa [hfr] using hmm
  · intro a ha hfail
    obtain ⟨_, h2⟩ := reapIds_characterization
      ((db.filter (isStale now)).map (fun x => x.id)) updateOk now db conns
    unfold cleanup_stale_agents
    rw [h2]
    apply List.mem_filter.mpr
    refine ⟨ha, ?_⟩
    have hnot : a ∉
        (((db.filter (isStale now)).map (fun x => x.id)).filter updateOk) := by
      intro hmem
      have := (List.mem_filter.mp hmem).2
      rw [hfail] at this
      cases this
    simp [hnot]

/-- Witness for C9's amended theorem at concrete inputs. -/
theorem persistence_failure_amended_witness :
    (decodeAgentMessage (encodeAgentMessage (.register sampleInfo)) =
      some (.register sampleInfo) ∧
     sampleRow ∈ [sampleRow] ∧
     (fun _ : Uuid => false) sampleRow.id = false) ∧
    ((handle_agent_socket
        (some (.text (encodeAgentMessage (.register sampleInfo)))) [] [] 3
        (mkUuid 2) false = ⟨[], [], none, true⟩) ∧
     (hubSessionLoop (mkUuid 7) [sampleRow]
        (.item (.text (encodeAgentMessage (.register sampleInfo))) 3 false ::
          []) =
      hubSessionLoop (mkUuid 7) [sampleRow] []) ∧
     (sampleRow ∈ [sampleRow] → (fun _ : Uuid => false) sampleRow.id = false →
      sampleRow ∈ (cleanup_stale_agents [sampleRow] [mkUuid 7] 100
        (fun _ => false)).1) ∧
     (∀ a ∈ ([mkUuid 7] : List Uuid), (fun _ : Uuid => false) a = false →
      a ∈ (cleanup_stale_agents [sampleRow] [mkUuid 7] 100
        (fun _ => false)).2)) :=
  ⟨⟨decodeAgentMessage_encodeAgentMessage (.register sampleInfo),
    List.mem_singleton.mpr rfl, rfl⟩,
    by
      have hmain := persistence_failure_amended [sampleRow] [] 3 (mkUuid 2)
        (encodeAgentMessage (.register sampleInfo)) sampleInfo (mkUuid 7)
        [mkUuid 7] (fun _ => false) sampleRow
      have hmain2 := persistence_failure_amended [] [] 3 (mkUuid 2)
        (encodeAgentMessage (.register sampleInfo)) sampleInfo (mkUuid 7)
        [mkUuid 7] (fun _ => false) sampleRow
      exact ⟨hmain2.1 (decodeAgentMessage_encodeAgentMessage
          (.register sampleInfo)),
        hmain.2.1,
        fun hr hf => (persistence_failure_amended [sampleRow] [] 100
          (mkUuid 2) (encodeAgentMessage (.register sampleInfo)) sampleInfo
          (mkUuid 7) [mkUuid 7] (fun _ => false) sampleRow).2.2.1 hr hf,
        (persistence_failure_amended [sampleRow] [] 100 (mkUuid 2)
          (encodeAgentMessage (.register sampleInfo)) sampleInfo (mkUuid 7)
          [mkUuid 7] (fun _ => false) sampleRow).2.2.2⟩⟩

end Podpilot

